import Mathlib

/-!
# Verification of the `ConfigParser` configuration module

A shallow embedding, in Lean 4, of `src/config/parser.py`: a configuration
management layer that merges a JSON-like configuration document with
path-based overrides, derives run directories, persists the merged document,
and offers dynamic instantiation helpers and a logger factory.

Modelling conventions:
* Python JSON-compatible values are `JValue`; Python dicts are ordered
  association lists (`Dict`), matching insertion-order semantics
  (assigning to an existing key keeps its position, a new key is appended).
* Python exceptions are the error side of `Except PyErr`.
* `None` tests (`v is not None`) are the `JValue.isNull` discriminator.
* Filesystem effects (mkdir, JSON write/read) act on an explicit `FS` state.
* Object identity (in-place mutation of the caller's dict) is modelled
  separately with an explicit heap of dictionaries addressed by `Addr`.
-/

/-- A JSON-compatible Python value: `None`, booleans, integers, strings and
    (nested) dictionaries with string keys. -/
inductive JValue where
  | null
  | bool (b : Bool)
  | int (n : Int)
  | str (s : String)
  | obj (fields : List (String × JValue))
deriving Repr

/-- An ordered Python dictionary with string keys. -/
abbrev Dict := List (String × JValue)

/-- The Python exceptions the module can raise. `assertionError` carries the
    optional message of the `assert` statement. -/
inductive PyErr where
  | keyError (k : String)
  | typeError
  | indexError
  | assertionError (msg : Option String)
  | attributeError (name : String)
  | fileNotFoundError (path : String)
  | fileExistsError (path : String)
deriving DecidableEq, Repr

/-- `v is None`. -/
def JValue.isNull : JValue → Bool
  | .null => true
  | _ => false

/-- First-match association lookup: Python `d[k]` on a dict, as an `Option`
    (a dict never holds duplicate keys, so first match is the match). -/
def lookupD {κ α : Type} [DecidableEq κ] : List (κ × α) → κ → Option α
  | [], _ => none
  | (k', v) :: rest, k => if k' = k then some v else lookupD rest k

/-- Python `d[k] = v` on a dict: overwrite in place (keeping the key's
    position) or append a fresh key at the end. -/
def setD {κ α : Type} [DecidableEq κ] : List (κ × α) → κ → α → List (κ × α)
  | [], k, v => [(k, v)]
  | (k', v') :: rest, k, v =>
      if k' = k then (k', v) :: rest else (k', v') :: setD rest k v

/-- Python `d.update(kvs)` on dicts: assign every entry of `kvs` in order. -/
def updateD {κ α : Type} [DecidableEq κ] (d kvs : List (κ × α)) : List (κ × α) :=
  kvs.foldl (fun acc kv => setD acc kv.1 kv.2) d

/-- Python `operator.getitem(t, k)` for a string key `k`: `KeyError` when the
    key is missing from a dict, `TypeError` when `t` is not a dict (string
    indices must be integers, scalars are not subscriptable). -/
def getItem (t : JValue) (k : String) : Except PyErr JValue :=
  match t with
  | .obj d =>
      match lookupD d k with
      | some v => .ok v
      | none => .error (.keyError k)
  | _ => .error .typeError

/-- `_get_by_path(tree, keys)`:
    `functools.reduce(operator.getitem, keys, tree)`, with a raised exception
    propagating out of the fold. -/
def _get_by_path (tree : JValue) (keys : List String) : Except PyErr JValue :=
  match keys with
  | [] => .ok tree
  | k :: ks =>
      match getItem tree k with
      | .ok t => _get_by_path t ks
      | .error e => .error e

/-- Python `s.split(sep)` for a one-character separator (auxiliary loop over
    the characters, `acc` holds the current fragment reversed). -/
def pySplitAux (sep : Char) : List Char → List Char → List String
  | [], acc => [String.mk acc.reverse]
  | c :: cs, acc =>
      if c = sep then String.mk acc.reverse :: pySplitAux sep cs []
      else pySplitAux sep cs (c :: acc)

/-- Python `s.split(sep)` for a one-character separator: splits at every
    occurrence, `"" ↦ [""]`, `"a;;b" ↦ ["a", "", "b"]`. -/
def pySplit (s : String) (sep : Char) : List String :=
  pySplitAux sep s.data []

/-- The mutation `_get_by_path(tree, keys[:-1])[keys[-1]] = value`, written as
    a functional rebuild along the path: navigate all but the last key with
    `operator.getitem` semantics, then assign at the last key (which must land
    in a dict, else `TypeError`).  `keys = []` would be Python's
    `keys[-1]` on an empty list, an `IndexError` (unreachable from
    `_set_by_path` since `split` never returns an empty list). -/
def setByKeys : JValue → List String → JValue → Except PyErr JValue
  | _, [], _ => .error .indexError
  | t, [k], v =>
      match t with
      | .obj d => .ok (.obj (setD d k v))
      | _ => .error .typeError
  | t, k :: k2 :: ks, v =>
      match t with
      | .obj d =>
          match lookupD d k with
          | some sub => (setByKeys sub (k2 :: ks) v).map (fun sub2 => .obj (setD d k sub2))
          | none => .error (.keyError k)
      | _ => .error .typeError

/-- `_set_by_path(tree, keys, value)`: split the key chain on `;` and set the
    value at that path. -/
def _set_by_path (tree : JValue) (keys : String) (value : JValue) : Except PyErr JValue :=
  setByKeys tree (pySplit keys ';') value

/-- The loop body of `_update_config`:
    `for k, v in modification.items(): if v is not None: _set_by_path(config, k, v)`,
    with a raised exception propagating out of the loop. -/
def applyMods : JValue → List (String × JValue) → Except PyErr JValue
  | cfg, [] => .ok cfg
  | cfg, kv :: rest =>
      if kv.2.isNull then applyMods cfg rest
      else
        match _set_by_path cfg kv.1 kv.2 with
        | .ok cfg2 => applyMods cfg2 rest
        | .error e => .error e

/-- `_update_config(config, modification)`: apply every non-`None` entry of
    the modification set to the config, in order; `None` (absent) override
    values are skipped; `modification is None` returns the config unchanged. -/
def _update_config (config : JValue) (modification : Option (List (String × JValue))) :
    Except PyErr JValue :=
  match modification with
  | none => .ok config
  | some mods => applyMods config mods

/-! ## Dynamic instantiation: `init_obj` and `init_ftn` -/

/-- A Python callable taking positional arguments and keyword arguments. -/
abbrev PyCallable := List JValue → Dict → Except PyErr JValue

/-- A Python module, as its attribute table of callables. -/
abbrev PyModule := String → Option PyCallable

/-- `getattr(module, name)`: `TypeError` when the attribute name is not a
    string, `AttributeError` when the module has no such attribute. -/
def getattrM (module : PyModule) (name : JValue) : Except PyErr PyCallable :=
  match name with
  | .str s =>
      match module s with
      | some f => .ok f
      | none => .error (.attributeError s)
  | _ => .error .typeError

/-- `dict(v)`: copy a dict, error on a non-mapping. -/
def dictOf (v : JValue) : Except PyErr Dict :=
  match v with
  | .obj d => .ok d
  | _ => .error .typeError

/-- `all([k not in module_args for k in kwargs])`, the guard of the
    `assert` in `init_obj` and `init_ftn`. -/
def allKwargsFresh (module_args kwargs : Dict) : Bool :=
  kwargs.all (fun kv => (lookupD module_args kv.1).isNone)

/-- `init_obj(self, name, module, *args, **kwargs)`: read `type` and `args`
    from the configuration at `name`, assert that no caller keyword argument
    collides with a configured argument, merge the caller keyword arguments
    on top, and call `getattr(module, type)(*args, **merged)`. -/
def init_obj (config : JValue) (name : String) (module : PyModule)
    (args : List JValue) (kwargs : Dict) : Except PyErr JValue :=
  match getItem config name with
  | .error e => .error e
  | .ok entry =>
      match getItem entry "type" with
      | .error e => .error e
      | .ok module_name =>
          match getItem entry "args" with
          | .error e => .error e
          | .ok margs =>
              match dictOf margs with
              | .error e => .error e
              | .ok module_args =>
                  if allKwargsFresh module_args kwargs then
                    match getattrM module module_name with
                    | .error e => .error e
                    | .ok f => f args (updateD module_args kwargs)
                  else .error (.assertionError none)

/-- `init_ftn(self, name, module, *args, **kwargs)`: same as `init_obj` but
    returns `functools.partial(getattr(module, type), *args, **merged)`
    instead of calling it: a callable that prepends the fixed positional
    arguments and merges the fixed keyword arguments under later ones. -/
def init_ftn (config : JValue) (name : String) (module : PyModule)
    (args : List JValue) (kwargs : Dict) : Except PyErr PyCallable :=
  match getItem config name with
  | .error e => .error e
  | .ok entry =>
      match getItem entry "type" with
      | .error e => .error e
      | .ok module_name =>
          match getItem entry "args" with
          | .error e => .error e
          | .ok margs =>
              match dictOf margs with
              | .error e => .error e
              | .ok module_args =>
                  if allKwargsFresh module_args kwargs then
                    match getattrM module module_name with
                    | .error e => .error e
                    | .ok f =>
                        .ok (fun args2 kwargs2 =>
                          f (args ++ args2) (updateD (updateD module_args kwargs) kwargs2))
                  else .error (.assertionError none)

/-! ## Logger factory: `get_logger` -/

/-- `logging.WARNING`. -/
def WARNING : Nat := 30

/-- `logging.INFO`. -/
def INFO : Nat := 20

/-- `logging.DEBUG`. -/
def DEBUG : Nat := 10

/-- A standard logger, reduced to what `get_logger` touches: its name and the
    level set on it. -/
structure Logger where
  name : String
  level : Nat
deriving DecidableEq, Repr

/-- `self.log_levels = {0: logging.WARNING, 1: logging.INFO, 2: logging.DEBUG}`. -/
def log_levels : List (Int × Nat) := [(0, WARNING), (1, INFO), (2, DEBUG)]

/-- The message of the verbosity `assert` in `get_logger`. -/
def msg_verbosity (verbosity : Int) : String :=
  "verbosity option " ++ toString verbosity ++
    " is invalid. Valid options are dict_keys([0, 1, 2])."

/-- `get_logger(self, name, verbosity)`: assert the verbosity is a key of
    `log_levels`, then return the logger named `name` with that level set. -/
def get_logger (name : String) (verbosity : Int) : Except PyErr Logger :=
  match lookupD log_levels verbosity with
  | some lvl => .ok { name := name, level := lvl }
  | none => .error (.assertionError (some (msg_verbosity verbosity)))

/-! ## Filesystem model and `ConfigParser.__init__` -/

/-- The filesystem state the module touches: the set of directories that
    exist and the JSON documents written by path. -/
structure FS where
  dirs : List String
  files : List (String × JValue)
deriving Repr

/-- `pathlib` path joining, `a / b`. -/
def pjoin (a b : String) : String := a ++ "/" ++ b

/-- `path.mkdir(parents=True, exist_ok=exist_ok)`: missing parents are
    created silently (never an error); an already existing directory is an
    error exactly when `exist_ok` is false. -/
def mkdirParents (fs : FS) (path : String) (exist_ok : Bool) : Except PyErr FS :=
  if fs.dirs.contains path then
    if exist_ok then .ok fs else .error (.fileExistsError path)
  else .ok { fs with dirs := path :: fs.dirs }

/-- `torchseg.utils.write_json(content, fname)`: (over)write the document at
    that path. -/
def write_json (content : JValue) (fname : String) (fs : FS) : FS :=
  { fs with files := setD fs.files fname content }

/-- `torchseg.utils.read_json(fname)`: read the document at that path,
    `FileNotFoundError` when absent. -/
def read_json (fs : FS) (fname : String) : Except PyErr JValue :=
  match lookupD fs.files fname with
  | some doc => .ok doc
  | none => .error (.fileNotFoundError fname)

/-- The `ConfigParser` object state after a successful `__init__`
    (`log_levels` is the constant table above). -/
structure ConfigParser where
  _config : JValue
  resume : Option String
  _save_dir : String
  _log_dir : String
deriving Repr

/-- The read-only `config` property. -/
def ConfigParser.config (cp : ConfigParser) : JValue := cp._config

/-- The read-only `save_dir` property. -/
def ConfigParser.save_dir (cp : ConfigParser) : String := cp._save_dir

/-- The read-only `log_dir` property. -/
def ConfigParser.log_dir (cp : ConfigParser) : String := cp._log_dir

/-- `ConfigParser.__init__(config, resume, modification, run_id)` over the
    explicit filesystem state `fs`; `now` is the timestamp string
    `datetime.datetime.now().strftime('%d%m_%H%M%S')` used when `run_id` is
    `None`.  Returns the filesystem after the side effects performed up to
    the point of return or of the raised exception, with the constructed
    object or the exception:
    merge the modification set into the config, read
    `config['machine']['args']['save_dir']` and `config['name']`, derive
    `save_dir = <base>/models/<name>/<run_id>` and
    `log_dir = <base>/log/<name>/<run_id>`, create both directories
    (`exist_ok` exactly when `run_id == ''`), write the merged config to
    `<save_dir>/config.json`, and set up logging from `config['logconf']`. -/
def ConfigParser.init (config : JValue) (resume : Option String)
    (modification : Option (List (String × JValue))) (run_id : Option String)
    (now : String) (fs : FS) : FS × Except PyErr ConfigParser :=
  match _update_config config modification with
  | .error e => (fs, .error e)
  | .ok cfg =>
      match getItem cfg "machine" with
      | .error e => (fs, .error e)
      | .ok machine =>
      match getItem machine "args" with
      | .error e => (fs, .error e)
      | .ok margs =>
      match getItem margs "save_dir" with
      | .error e => (fs, .error e)
      | .ok sdv =>
      match sdv with
      | .str save_dir =>
          match getItem cfg "name" with
          | .error e => (fs, .error e)
          | .ok nv =>
          match nv with
          | .str exper_name =>
              let rid := match run_id with | none => now | some r => r
              let sd := pjoin (pjoin (pjoin save_dir "models") exper_name) rid
              let ld := pjoin (pjoin (pjoin save_dir "log") exper_name) rid
              let exist_ok := rid == ""
              match mkdirParents fs sd exist_ok with
              | .error e => (fs, .error e)
              | .ok fs1 =>
              match mkdirParents fs1 ld exist_ok with
              | .error e => (fs1, .error e)
              | .ok fs2 =>
              let fs3 := write_json cfg (pjoin sd "config.json") fs2
              match getItem cfg "logconf" with
              | .error e => (fs3, .error e)
              | .ok _ =>
                  (fs3, .ok { _config := cfg, resume := resume, _save_dir := sd, _log_dir := ld })
          | _ => (fs, .error .typeError)
      | _ => (fs, .error .typeError)

/-! ## Command-line construction: `from_args` -/

/-- `pathlib` `.parent` for the relative and absolute paths the module
    handles: drop the last `/`-separated component (`"."` when there is
    none). -/
def pparent (p : String) : String :=
  match (pySplit p '/').dropLast with
  | [] => "."
  | ps => String.intercalate "/" ps

/-- Python truthiness of an optional string: `None` and `''` are falsy. -/
def truthyStr : Option String → Bool
  | none => false
  | some s => s != ""

/-- The message of the missing-config `assert` in `from_args`. -/
def msg_no_cfg : String :=
  "Configuration file need to be specified. Add -c config.json, for example."

/-- A declared custom CLI option: its flag list and the `;`-separated target
    path in the config (its argparse value `type` only converts the CLI text
    and is not modelled). -/
structure CustomOption where
  flags : List String
  target : String

/-- The parsed CLI arguments `from_args` consumes: the built-in `-d`, `-r`,
    `-c`, `-l` options and, for each declared custom option name, the parsed
    value bound by argparse (`JValue.null` when the flag was not given, since
    every custom option is declared with `default=None`). -/
structure Args where
  device : Option String
  resume : Option String
  conf : Option String
  logconf : Option String
  custom : String → JValue

/-- `_get_opt_name(flags)`: the first flag starting with `--`, stripped of
    `--` and with `-` turned into `_`; otherwise the first flag so stripped
    (`IndexError` on an empty flag list). -/
def _get_opt_name (flags : List String) : Except PyErr String :=
  match flags.find? (fun f => f.startsWith "--") with
  | some f => .ok ((f.replace "--" "").replace "-" "_")
  | none =>
      match flags with
      | [] => .error .indexError
      | f :: _ => .ok ((f.replace "--" "").replace "-" "_")

/-- `modification = {opt.target: getattr(args, _get_opt_name(opt.flags)) for opt in options}`. -/
def buildModification (options : List CustomOption) (args : Args) :
    Except PyErr (List (String × JValue)) :=
  match options with
  | [] => .ok []
  | opt :: rest =>
      match _get_opt_name opt.flags with
      | .error e => .error e
      | .ok n =>
          match buildModification rest args with
          | .ok m => .ok ((opt.target, args.custom n) :: m)
          | .error e => .error e

/-- `config[k] = x` at the top level of a document. -/
def setItemJ (v : JValue) (k : String) (x : JValue) : Except PyErr JValue :=
  match v with
  | .obj d => .ok (.obj (setD d k x))
  | _ => .error .typeError

/-- `config.update(overlay)` on documents: top-level keys of `overlay` are
    assigned into `config` (`AttributeError` when `config` is not a dict,
    `TypeError` when the overlay is not iterable as a mapping). -/
def updateJ (v overlay : JValue) : Except PyErr JValue :=
  match v, overlay with
  | .obj d, .obj o => .ok (.obj (updateD d o))
  | .obj _, _ => .error .typeError
  | _, _ => .error (.attributeError "update")

/-- What `from_args` resolves before delegating to `__init__`. -/
structure ResolvedArgs where
  resume : Option String
  config : JValue
  modification : List (String × JValue)
  device : Option String
deriving Repr

/-- The body of `from_args` up to the delegation `cls(config, resume,
    modification)`: select the device, resolve which config file to load
    (`<resume dir>/config.json` when resuming, else the `-c` path, which the
    `assert` requires), read it, overlay the `-c` file on top when both `-c`
    and `-r` are given, force the top-level `logconf` key from the `-l`
    option (empty string when absent or empty), and build the modification
    set from the declared custom options. -/
def from_args_resolve (fs : FS) (args : Args) (options : List CustomOption) :
    Except PyErr ResolvedArgs :=
  let device := args.device
  match
    (match args.resume with
     | some r => Except.ok (some r, pjoin (pparent r) "config.json")
     | none =>
         match args.conf with
         | some c => Except.ok ((none : Option String), c)
         | none => Except.error (PyErr.assertionError (some msg_no_cfg))) with
  | .error e => .error e
  | .ok (resume, cfg_fname) =>
  match read_json fs cfg_fname with
  | .error e => .error e
  | .ok config0 =>
  match
    (if truthyStr args.conf && resume.isSome then
       match read_json fs (args.conf.getD "") with
       | .error e => Except.error e
       | .ok overlay => updateJ config0 overlay
     else Except.ok config0) with
  | .error e => .error e
  | .ok config1 =>
  match
    setItemJ config1 "logconf"
      (.str (if truthyStr args.logconf then args.logconf.getD "" else "")) with
  | .error e => .error e
  | .ok config2 =>
  match buildModification options args with
  | .error e => .error e
  | .ok modification =>
      .ok { resume := resume, config := config2, modification := modification, device := device }

/-- `ConfigParser.from_args(args, options)` over the explicit filesystem
    state: resolve the CLI arguments and delegate to the constructor with
    `run_id=None` (so the timestamp `now` is used). -/
def ConfigParser.from_args (args : Args) (options : List CustomOption)
    (now : String) (fs : FS) : FS × Except PyErr ConfigParser :=
  match from_args_resolve fs args options with
  | .error e => (fs, .error e)
  | .ok r => ConfigParser.init r.config r.resume (some r.modification) none now fs

/-! ## Heap model for the in-place merge (object identity)

Python dicts are mutable objects: `_update_config` mutates the dict it is
given and returns the very same object.  To state this, documents are
modelled a second time with an explicit heap: every dict is a heap cell
addressed by an `Addr`, and dict-valued fields hold references. -/

/-- A heap address of a dictionary object. -/
abbrev Addr := Nat

/-- A field value in a heap dictionary: an immutable scalar stored directly,
    or a reference to another heap dictionary. -/
inductive HVal where
  | prim (v : JValue)
  | ref (a : Addr)
deriving Repr

/-- A heap dictionary. -/
abbrev HDict := List (String × HVal)

/-- A heap: cell `a` is `heap[a]` (the list index). -/
abbrev Heap := List HDict

/-- `v is None` on a heap field value. -/
def HVal.isNull : HVal → Bool
  | .prim .null => true
  | _ => false

/-- `d[k]` for the heap dictionary at address `a`: `KeyError` on a missing
    key (a dangling address cannot arise from Python and maps to
    `TypeError`). -/
def hGetField (h : Heap) (a : Addr) (k : String) : Except PyErr HVal :=
  match h.get? a with
  | some d =>
      match lookupD d k with
      | some v => .ok v
      | none => .error (.keyError k)
  | none => .error .typeError

/-- `d[k] = v` for the heap dictionary at address `a`: mutates that one
    cell, every other cell and every reference is untouched. -/
def hSetField (h : Heap) (a : Addr) (k : String) (v : HVal) : Except PyErr Heap :=
  match h.get? a with
  | some d => .ok (h.set a (setD d k v))
  | none => .error .typeError

/-- `_get_by_path` on the heap: follow one reference per key; a scalar field
    is not subscriptable (`TypeError`). -/
def hNav : Heap → Addr → List String → Except PyErr Addr
  | _, a, [] => .ok a
  | h, a, k :: ks =>
      match hGetField h a k with
      | .ok (.ref b) => hNav h b ks
      | .ok (.prim _) => .error .typeError
      | .error e => .error e

/-- `hNav` instrumented with the list of addresses it reads a field from
    (the navigation result itself is not read from, only returned). -/
def hNavTrace : Heap → Addr → List String → Except PyErr (List Addr × Addr)
  | _, a, [] => .ok ([], a)
  | h, a, k :: ks =>
      match hGetField h a k with
      | .ok (.ref b) =>
          match hNavTrace h b ks with
          | .ok (tr, t) => .ok (a :: tr, t)
          | .error e => .error e
      | .ok (.prim _) => .error .typeError
      | .error e => .error e

/-- `_set_by_path` on the heap: navigate to the next-to-last key and mutate
    that dictionary at the last key. -/
def hSetByPath (h : Heap) (root : Addr) (keys : String) (value : HVal) :
    Except PyErr Heap :=
  let ks := pySplit keys ';'
  match hNav h root ks.dropLast with
  | .ok tgt => hSetField h tgt (ks.getLastD "") value
  | .error e => .error e

/-- The loop of `_update_config` on the heap. -/
def applyModsHeap : Heap → Addr → List (String × HVal) → Except PyErr Heap
  | h, _, [] => .ok h
  | h, root, kv :: rest =>
      if kv.2.isNull then applyModsHeap h root rest
      else
        match hSetByPath h root kv.1 kv.2 with
        | .ok h2 => applyModsHeap h2 root rest
        | .error e => .error e

/-- `_update_config` on the heap: mutate through the given reference and
    `return config` — the very same reference that came in. -/
def hUpdateConfig (h : Heap) (config : Addr)
    (modification : Option (List (String × HVal))) : Except PyErr (Heap × Addr) :=
  match modification with
  | none => .ok (h, config)
  | some mods =>
      match applyModsHeap h config mods with
      | .ok h2 => .ok (h2, config)
      | .error e => .error e

-- Basic dictionary lemmas

theorem lookupD_setD_self {κ α : Type} [DecidableEq κ] (d : List (κ × α)) (k : κ) (v : α) :
    lookupD (setD d k v) k = some v := by
  induction d with
  | nil => simp [setD, lookupD]
  | cons hd tl ih =>
      by_cases h : hd.1 = k
      · simp [setD, lookupD, h]
      · simp [setD, lookupD, h, ih]

theorem lookupD_setD_ne {κ α : Type} [DecidableEq κ] (d : List (κ × α)) (k k' : κ) (v : α)
    (h : k' ≠ k) :
    lookupD (setD d k v) k' = lookupD d k' := by
  have hne : ¬ k = k' := fun hh => h hh.symm
  induction d with
  | nil => simp [setD, lookupD, hne]
  | cons hd tl ih =>
      by_cases hk : hd.1 = k
      · simp [setD, lookupD, hk, hne]
      · simp [setD, lookupD, hk, ih]

/-- Successful item access means the container is a dict holding the key. -/
theorem getItem_ok_iff (t : JValue) (k : String) (v : JValue) :
    getItem t k = .ok v ↔ ∃ d, t = .obj d ∧ lookupD d k = some v := by
  constructor
  · intro h
    cases t with
    | obj d =>
        refine ⟨d, rfl, ?_⟩
        cases hl : lookupD d k with
        | some w => simp [getItem, hl] at h; simp [h]
        | none => simp [getItem, hl] at h
    | null => simp [getItem] at h
    | bool b => simp [getItem] at h
    | int n => simp [getItem] at h
    | str s => simp [getItem] at h
  · rintro ⟨d, rfl, hl⟩
    simp [getItem, hl]

/-- A three-key chain `a;b;c` whose intermediate dicts exist is rebuilt by
    `_set_by_path` into nested `setD` updates. -/
theorem setByKeys_three (d da db : Dict) (a b c : String) (v : JValue)
    (ha : lookupD d a = some (.obj da))
    (hb : lookupD da b = some (.obj db)) :
    setByKeys (.obj d) [a, b, c] v =
      .ok (.obj (setD d a (.obj (setD da b (.obj (setD db c v)))))) := by
  simp [setByKeys, ha, hb, Except.map]

/--
C1: For every modification set entry with a non-null value and a
semicolon-delimited path splitting into keys `a; b; c` whose intermediate
keys `a` (with a dict value) and `b` (with a dict value) exist in the base
document, the merge succeeds and the merged document has `value` at
`doc[a][b][c]` (the final key is created or overwritten), while every
sibling key of `a` and of `b` keeps its base value.
-/
theorem C1_set_existing_path_and_frame
    (d da db : Dict) (p a b c : String) (v : JValue)
    (hsplit : pySplit p ';' = [a, b, c])
    (hv : v.isNull = false)
    (ha : lookupD d a = some (.obj da))
    (hb : lookupD da b = some (.obj db)) :
    ∃ d' da' db',
      _update_config (.obj d) (some [(p, v)]) = .ok (.obj d') ∧
      lookupD d' a = some (.obj da') ∧
      lookupD da' b = some (.obj db') ∧
      lookupD db' c = some v ∧
      (∀ k, k ≠ a → lookupD d' k = lookupD d k) ∧
      (∀ k, k ≠ b → lookupD da' k = lookupD da k) := by
  refine ⟨setD d a (.obj (setD da b (.obj (setD db c v)))),
          setD da b (.obj (setD db c v)), setD db c v, ?_, ?_, ?_, ?_, ?_, ?_⟩
  · simp [_update_config, applyMods, hv, _set_by_path, hsplit,
      setByKeys_three d da db a b c v ha hb]
  · exact lookupD_setD_self d a _
  · exact lookupD_setD_self da b _
  · exact lookupD_setD_self db c v
  · exact fun k hk => lookupD_setD_ne d a k _ hk
  · exact fun k hk => lookupD_setD_ne da b k _ hk

/-- Witness for C1 at a concrete document and override. -/
theorem C1_set_existing_path_and_frame_witness :
    ∃ d' da' db',
      _update_config
          (.obj [("a", .obj [("b", .obj [("x", .int 1)]), ("s", .int 2)]), ("t", .int 3)])
          (some [("a;b;c", .int 9)]) = .ok (.obj d') ∧
      lookupD d' "a" = some (.obj da') ∧
      lookupD da' "b" = some (.obj db') ∧
      lookupD db' "c" = some (.int 9) ∧
      (∀ k, k ≠ "a" → lookupD d' k = lookupD [("a", .obj [("b", .obj [("x", .int 1)]), ("s", .int 2)]), ("t", .int 3)] k) ∧
      (∀ k, k ≠ "b" → lookupD da' k = lookupD [("b", .obj [("x", .int 1)]), ("s", .int 2)] k) :=
  C1_set_existing_path_and_frame
    [("a", .obj [("b", .obj [("x", .int 1)]), ("s", .int 2)]), ("t", .int 3)]
    [("b", .obj [("x", .int 1)]), ("s", .int 2)]
    [("x", .int 1)]
    "a;b;c" "a" "b" "c" (.int 9) rfl rfl rfl rfl

/--
C2: Null-valued entries of a modification set are skipped by the merge:
merging is the same as merging only the non-null entries, and a modification
set holding a single null-valued entry leaves the whole base document
(in particular its value at that path, and every key along that path)
unchanged.
-/
theorem C2_null_overrides_skipped :
    (∀ (config : JValue) (mods : List (String × JValue)),
        _update_config config (some mods) =
          _update_config config (some (mods.filter (fun kv => !kv.2.isNull)))) ∧
    (∀ (config : JValue) (p : String),
        _update_config config (some [(p, JValue.null)]) = .ok config) := by
  constructor
  · intro config mods
    simp only [_update_config]
    induction mods generalizing config with
    | nil => rfl
    | cons hd tl ih =>
        by_cases h : hd.2.isNull = true
        · simp [applyMods, h, List.filter_cons, ih]
        · simp only [applyMods, h, List.filter_cons, Bool.not_eq_true] at *
          simp only [h, Bool.not_false, if_true, applyMods, Bool.false_eq_true, if_false]
          cases _set_by_path config hd.1 hd.2 with
          | ok cfg2 => exact ih cfg2
          | error e => rfl
  · intro config p
    simp [_update_config, applyMods, JValue.isNull]

/-- If navigation of a proper prefix of the key chain lands on a dict that is
    missing the next key, `setByKeys` raises `KeyError` on that key. -/
theorem setByKeys_error_of_missing_intermediate :
    ∀ (i : Nat) (ks : List String) (tree : JValue) (d : Dict) (v : JValue),
      i + 1 < ks.length →
      _get_by_path tree (ks.take i) = .ok (.obj d) →
      lookupD d (ks.getD i "") = none →
      setByKeys tree ks v = .error (.keyError (ks.getD i "")) := by
  intro i
  induction i with
  | zero =>
      intro ks tree d v hlen hnav hmiss
      match ks, hlen with
      | k1 :: k2 :: rest, _ =>
          simp only [List.take_zero, _get_by_path, Except.ok.injEq] at hnav
          subst hnav
          simp only [List.getD_cons_zero] at hmiss ⊢
          simp [setByKeys, hmiss]
  | succ j ih =>
      intro ks tree d v hlen hnav hmiss
      match ks, hlen with
      | k1 :: ks', hlen =>
          simp only [List.take_succ_cons, _get_by_path] at hnav
          cases hg : getItem tree k1 with
          | error e => rw [hg] at hnav; exact absurd hnav (by simp)
          | ok sub =>
              rw [hg] at hnav
              obtain ⟨d0, rfl, hl0⟩ := (getItem_ok_iff tree k1 sub).mp hg
              have hlen' : j + 1 < ks'.length := by
                simpa [List.length_cons, Nat.succ_lt_succ_iff] using hlen
              simp only [List.getD_cons_succ] at hmiss ⊢
              have hrec := ih ks' sub d v hlen' hnav hmiss
              match ks', hlen' with
              | k2 :: rest, _ =>
                  simp [setByKeys, hl0, hrec, Except.map]

/-- If navigation of the whole key chain but its last key lands on a dict,
    `setByKeys` succeeds (the last key itself need not exist). -/
theorem setByKeys_ok_of_nav_dropLast :
    ∀ (ks : List String) (tree : JValue) (d : Dict) (v : JValue),
      ks ≠ [] →
      _get_by_path tree ks.dropLast = .ok (.obj d) →
      ∃ t, setByKeys tree ks v = .ok t := by
  intro ks
  induction ks with
  | nil => intro tree d v hne _; exact absurd rfl hne
  | cons k1 ks' ih =>
      intro tree d v _ hnav
      cases ks' with
      | nil =>
          simp only [List.dropLast_single, _get_by_path, Except.ok.injEq] at hnav
          subst hnav
          exact ⟨.obj (setD d k1 v), rfl⟩
      | cons k2 rest =>
          simp only [List.dropLast_cons₂, _get_by_path] at hnav
          cases hg : getItem tree k1 with
          | error e => rw [hg] at hnav; exact absurd hnav (by simp)
          | ok sub =>
              rw [hg] at hnav
              obtain ⟨d0, rfl, hl0⟩ := (getItem_ok_iff tree k1 sub).mp hg
              obtain ⟨t', ht'⟩ := ih sub d v (by simp) hnav
              exact ⟨.obj (setD d0 k1 t'), by simp [setByKeys, hl0, ht', Except.map]⟩

/--
C3: Merging a single non-null entry whose path has an intermediate key
missing from the document raises an uncaught `KeyError` on that key; and
whenever navigation of all the intermediate keys lands on a dict, the write
succeeds — only the final key of the path may be absent.
-/
theorem C3_missing_intermediate_key
    (tree : JValue) (p : String) (v : JValue) (ks : List String)
    (hsplit : pySplit p ';' = ks)
    (hv : v.isNull = false) :
    (∀ (i : Nat) (d : Dict),
        i + 1 < ks.length →
        _get_by_path tree (ks.take i) = .ok (.obj d) →
        lookupD d (ks.getD i "") = none →
        _update_config tree (some [(p, v)]) = .error (.keyError (ks.getD i ""))) ∧
    (∀ d : Dict,
        ks ≠ [] →
        _get_by_path tree ks.dropLast = .ok (.obj d) →
        ∃ t, _update_config tree (some [(p, v)]) = .ok t) := by
  constructor
  · intro i d hlen hnav hmiss
    have h := setByKeys_error_of_missing_intermediate i ks tree d v hlen hnav hmiss
    simp [_update_config, applyMods, hv, _set_by_path, hsplit, h]
  · intro d hne hnav
    obtain ⟨t, ht⟩ := setByKeys_ok_of_nav_dropLast ks tree d v hne hnav
    exact ⟨t, by simp [_update_config, applyMods, hv, _set_by_path, hsplit, ht]⟩

/-- Witness for C3 at a concrete document: the path `a;miss;c` dies with
    `KeyError("miss")`, while `a;b;newkey` (absent final key) succeeds. -/
theorem C3_missing_intermediate_key_witness :
    (∀ (i : Nat) (d : Dict),
        i + 1 < (["a", "miss", "c"] : List String).length →
        _get_by_path (.obj [("a", .obj [("b", .obj [("x", .int 1)])])])
            ((["a", "miss", "c"] : List String).take i) = .ok (.obj d) →
        lookupD d ((["a", "miss", "c"] : List String).getD i "") = none →
        _update_config (.obj [("a", .obj [("b", .obj [("x", .int 1)])])])
            (some [("a;miss;c", .int 9)]) =
          .error (.keyError ((["a", "miss", "c"] : List String).getD i ""))) ∧
    (∀ d : Dict,
        (["a", "miss", "c"] : List String) ≠ [] →
        _get_by_path (.obj [("a", .obj [("b", .obj [("x", .int 1)])])])
            (["a", "miss", "c"] : List String).dropLast = .ok (.obj d) →
        ∃ t, _update_config (.obj [("a", .obj [("b", .obj [("x", .int 1)])])])
            (some [("a;miss;c", .int 9)]) = .ok t) :=
  C3_missing_intermediate_key
    (.obj [("a", .obj [("b", .obj [("x", .int 1)])])]) "a;miss;c" (.int 9)
    ["a", "miss", "c"] rfl rfl

/--
C4: When the configuration holds `{type: T, args: A}` at `name` and the
caller keyword arguments are disjoint from the keys of `A`, `init_obj`
returns exactly what directly calling
`getattr(module, T)(*args, **(A updated with kwargs))` returns.
-/
theorem C4_init_obj_equals_direct_construction
    (config : JValue) (name : String) (entry : JValue) (T : String) (A : Dict)
    (module : PyModule) (args : List JValue) (kwargs : Dict)
    (he : getItem config name = .ok entry)
    (ht : getItem entry "type" = .ok (.str T))
    (ha : getItem entry "args" = .ok (.obj A))
    (hdisj : allKwargsFresh A kwargs = true) :
    init_obj config name module args kwargs =
      (getattrM module (.str T) >>= fun f => f args (updateD A kwargs)) := by
  cases hg : getattrM module (.str T) with
  | ok f => simp [init_obj, he, ht, ha, dictOf, hdisj, hg, Bind.bind, Except.bind]
  | error e => simp [init_obj, he, ht, ha, dictOf, hdisj, hg, Bind.bind, Except.bind]

/-- Witness for C4: the spec example
    `config = {"layer": {"type": "Conv", "args": {"k": 3}}}`,
    `init_obj("layer", module) == module.Conv(k=3)`. -/
theorem C4_init_obj_equals_direct_construction_witness :
    init_obj (.obj [("layer", .obj [("type", .str "Conv"), ("args", .obj [("k", .int 3)])])])
        "layer"
        (fun s => if s = "Conv" then
            some (fun a kw => Except.ok (JValue.obj (("nargs", JValue.int a.length) :: kw)))
          else none)
        [] [] =
      (getattrM
          (fun s => if s = "Conv" then
              some (fun a kw => Except.ok (JValue.obj (("nargs", JValue.int a.length) :: kw)))
            else none)
          (.str "Conv") >>= fun f => f [] (updateD [("k", .int 3)] [])) :=
  C4_init_obj_equals_direct_construction
    (.obj [("layer", .obj [("type", .str "Conv"), ("args", .obj [("k", .int 3)])])])
    "layer" (.obj [("type", .str "Conv"), ("args", .obj [("k", .int 3)])]) "Conv"
    [("k", .int 3)]
    (fun s => if s = "Conv" then
        some (fun a kw => Except.ok (JValue.obj (("nargs", JValue.int a.length) :: kw)))
      else none)
    [] [] rfl rfl rfl rfl

/--
C5: With `{type, args}` configured at `name`, a caller keyword-argument set
holding at least one key of the configured args (exactly when the `assert`
guard is false) makes both `init_obj` and `init_ftn` fail with an assertion
error, independent of the module, before constructing anything; a disjoint
keyword-argument set passes the check in both, which then perform the direct
construction / the direct `functools` partial application.
-/
theorem C5_kwargs_collision_assert
    (config : JValue) (name : String) (entry module_name : JValue) (A : Dict)
    (module : PyModule) (args : List JValue)
    (he : getItem config name = .ok entry)
    (ht : getItem entry "type" = .ok module_name)
    (ha : getItem entry "args" = .ok (.obj A)) :
    (∀ kwargs : Dict,
        (allKwargsFresh A kwargs = false ↔ ∃ kv ∈ kwargs, (lookupD A kv.1).isSome)) ∧
    (∀ kwargs : Dict, allKwargsFresh A kwargs = false →
        init_obj config name module args kwargs = .error (.assertionError none) ∧
        init_ftn config name module args kwargs = .error (.assertionError none)) ∧
    (∀ kwargs : Dict, allKwargsFresh A kwargs = true →
        init_obj config name module args kwargs =
          (getattrM module module_name >>= fun f => f args (updateD A kwargs)) ∧
        init_ftn config name module args kwargs =
          (getattrM module module_name).map (fun f =>
            fun args2 kwargs2 => f (args ++ args2) (updateD (updateD A kwargs) kwargs2))) := by
  refine ⟨?_, ?_, ?_⟩
  · intro kwargs
    simp [allKwargsFresh, List.all_eq_true, Option.isNone_iff_eq_none, Option.isSome_iff_ne_none]
  · intro kwargs hcol
    constructor
    · simp [init_obj, he, ht, ha, dictOf, hcol]
    · simp [init_ftn, he, ht, ha, dictOf, hcol]
  · intro kwargs hfresh
    constructor
    · cases hg : getattrM module module_name with
      | ok f => simp [init_obj, he, ht, ha, dictOf, hfresh, hg, Bind.bind, Except.bind]
      | error e => simp [init_obj, he, ht, ha, dictOf, hfresh, hg, Bind.bind, Except.bind]
    · cases hg : getattrM module module_name with
      | ok f => simp [init_ftn, he, ht, ha, dictOf, hfresh, hg, Except.map]
      | error e => simp [init_ftn, he, ht, ha, dictOf, hfresh, hg, Except.map]

/-- Witness for C5: with configured args `{"k": 3}`, the caller kwargs
    `{"k": 5}` trip the assertion in both helpers, and the disjoint kwargs
    `{"j": 5}` pass the check. -/
theorem C5_kwargs_collision_assert_witness :
    (init_obj (.obj [("layer", .obj [("type", .str "Conv"), ("args", .obj [("k", .int 3)])])])
        "layer" (fun _ => none) [] [("k", .int 5)] = .error (.assertionError none) ∧
     init_ftn (.obj [("layer", .obj [("type", .str "Conv"), ("args", .obj [("k", .int 3)])])])
        "layer" (fun _ => none) [] [("k", .int 5)] = .error (.assertionError none)) ∧
    (init_obj (.obj [("layer", .obj [("type", .str "Conv"), ("args", .obj [("k", .int 3)])])])
        "layer" (fun _ => none) [] [("j", .int 5)] =
      (getattrM (fun _ => none) (.str "Conv") >>= fun f => f [] (updateD [("k", .int 3)] [("j", .int 5)])) ∧
     init_ftn (.obj [("layer", .obj [("type", .str "Conv"), ("args", .obj [("k", .int 3)])])])
        "layer" (fun _ => none) [] [("j", .int 5)] =
      (getattrM (fun _ => none) (.str "Conv")).map (fun f =>
        fun args2 kwargs2 => f ([] ++ args2) (updateD (updateD [("k", .int 3)] [("j", .int 5)]) kwargs2))) :=
  ⟨(C5_kwargs_collision_assert
      (.obj [("layer", .obj [("type", .str "Conv"), ("args", .obj [("k", .int 3)])])])
      "layer" (.obj [("type", .str "Conv"), ("args", .obj [("k", .int 3)])]) (.str "Conv")
      [("k", .int 3)] (fun _ => none) [] rfl rfl rfl).2.1 [("k", .int 5)] rfl,
   (C5_kwargs_collision_assert
      (.obj [("layer", .obj [("type", .str "Conv"), ("args", .obj [("k", .int 3)])])])
      "layer" (.obj [("type", .str "Conv"), ("args", .obj [("k", .int 3)])]) (.str "Conv")
      [("k", .int 3)] (fun _ => none) [] rfl rfl rfl).2.2 [("j", .int 5)] rfl⟩

/--
C6: `get_logger(name, verbosity)` succeeds exactly on verbosity 0, 1, 2,
returning the logger named `name` with level `WARNING`, `INFO`, `DEBUG`
respectively, and fails with an assertion error on every other verbosity.
-/
theorem C6_get_logger_verbosity (name : String) (v : Int) :
    (v = 0 → get_logger name v = .ok { name := name, level := WARNING }) ∧
    (v = 1 → get_logger name v = .ok { name := name, level := INFO }) ∧
    (v = 2 → get_logger name v = .ok { name := name, level := DEBUG }) ∧
    (v ≠ 0 → v ≠ 1 → v ≠ 2 →
        get_logger name v = .error (.assertionError (some (msg_verbosity v)))) := by
  refine ⟨?_, ?_, ?_, ?_⟩
  · rintro rfl; rfl
  · rintro rfl; rfl
  · rintro rfl; rfl
  · intro h0 h1 h2
    have n0 : ¬ ((0 : Int) = v) := fun hh => h0 hh.symm
    have n1 : ¬ ((1 : Int) = v) := fun hh => h1 hh.symm
    have n2 : ¬ ((2 : Int) = v) := fun hh => h2 hh.symm
    simp [get_logger, log_levels, lookupD, n0, n1, n2]

/-- Witness for C6: `get_logger("train", 5)` trips the assertion,
    `get_logger("train", 1)` yields the INFO-level logger. -/
theorem C6_get_logger_verbosity_witness :
    get_logger "train" 5 = .error (.assertionError (some (msg_verbosity 5))) ∧
    get_logger "train" 1 = .ok { name := "train", level := INFO } :=
  ⟨(C6_get_logger_verbosity "train" 5).2.2.2 (by decide) (by decide) (by decide),
   (C6_get_logger_verbosity "train" 1).2.1 rfl⟩

/-- Unfolding of `ConfigParser.__init__` past the merge and the two config
    lookups, down to the directory-creation stage. -/
theorem ConfigParser.init_unfold (config : JValue) (resume : Option String)
    (modification : Option (List (String × JValue))) (r now : String) (fs : FS)
    (cfg machine margs : JValue) (base n : String)
    (hm : _update_config config modification = .ok cfg)
    (h1 : getItem cfg "machine" = .ok machine)
    (h2 : getItem machine "args" = .ok margs)
    (h3 : getItem margs "save_dir" = .ok (.str base))
    (h4 : getItem cfg "name" = .ok (.str n)) :
    ConfigParser.init config resume modification (some r) now fs =
      (match mkdirParents fs (pjoin (pjoin (pjoin base "models") n) r) (r == "") with
       | .error e => (fs, .error e)
       | .ok fs1 =>
         match mkdirParents fs1 (pjoin (pjoin (pjoin base "log") n) r) (r == "") with
         | .error e => (fs1, .error e)
         | .ok fs2 =>
           match getItem cfg "logconf" with
           | .error e => (write_json cfg (pjoin (pjoin (pjoin (pjoin base "models") n) r) "config.json") fs2, .error e)
           | .ok _ => (write_json cfg (pjoin (pjoin (pjoin (pjoin base "models") n) r) "config.json") fs2,
                       .ok { _config := cfg, resume := resume,
                             _save_dir := pjoin (pjoin (pjoin base "models") n) r,
                             _log_dir := pjoin (pjoin (pjoin base "log") n) r })) := by
  simp [ConfigParser.init, hm, h1, h2, h3, h4]

/-- The derived checkpoint and log directories are distinct paths
    (`models` and `log` differ in length). -/
theorem models_dir_ne_log_dir (base n r : String) :
    pjoin (pjoin (pjoin base "models") n) r ≠ pjoin (pjoin (pjoin base "log") n) r := by
  intro h
  have hlen := congrArg String.length h
  have e1 : ("/" : String).length = 1 := rfl
  have e2 : ("models" : String).length = 6 := rfl
  have e3 : ("log" : String).length = 3 := rfl
  simp only [pjoin, String.length_append, e1, e2, e3] at hlen
  omega

/-- With `exist_ok=True`, `mkdir` always succeeds. -/
theorem mkdirParents_ok_of_exist_ok (fs : FS) (p : String) :
    ∃ fs1, mkdirParents fs p true = .ok fs1 := by
  cases h : fs.dirs.contains p with
  | true => exact ⟨fs, by unfold mkdirParents; rw [h]; rfl⟩
  | false => exact ⟨{ fs with dirs := p :: fs.dirs }, by unfold mkdirParents; rw [h]; rfl⟩

/--
C7: For a merged document providing `name` and `machine.args.save_dir` (and
the `logconf` key the constructor reads afterwards) and a non-null run
identifier `r`, construction derives
`save_dir = <base>/models/<name>/<r>` and `log_dir = <base>/log/<name>/<r>`,
creates both directories, writes the merged document to
`<save_dir>/config.json`, and — when either directory already exists —
succeeds if and only if `r` is the empty string.
-/
theorem C7_directory_derivation_and_persistence
    (config : JValue) (resume : Option String)
    (modification : Option (List (String × JValue)))
    (cfg machine margs lc : JValue) (base n r now : String)
    (hm : _update_config config modification = .ok cfg)
    (h1 : getItem cfg "machine" = .ok machine)
    (h2 : getItem machine "args" = .ok margs)
    (h3 : getItem margs "save_dir" = .ok (.str base))
    (h4 : getItem cfg "name" = .ok (.str n))
    (h5 : getItem cfg "logconf" = .ok lc) :
    (∀ fs : FS,
        fs.dirs.contains (pjoin (pjoin (pjoin base "models") n) r) = false →
        fs.dirs.contains (pjoin (pjoin (pjoin base "log") n) r) = false →
        ∃ fs' cp,
          ConfigParser.init config resume modification (some r) now fs = (fs', .ok cp) ∧
          cp.save_dir = pjoin (pjoin (pjoin base "models") n) r ∧
          cp.log_dir = pjoin (pjoin (pjoin base "log") n) r ∧
          cp.config = cfg ∧
          cp.save_dir ∈ fs'.dirs ∧
          cp.log_dir ∈ fs'.dirs ∧
          lookupD fs'.files (pjoin cp.save_dir "config.json") = some cfg) ∧
    (∀ fs : FS,
        (fs.dirs.contains (pjoin (pjoin (pjoin base "models") n) r) = true ∨
         fs.dirs.contains (pjoin (pjoin (pjoin base "log") n) r) = true) →
        ((∃ fs' cp,
            ConfigParser.init config resume modification (some r) now fs = (fs', .ok cp))
          ↔ r = "")) := by
  have hne := models_dir_ne_log_dir base n r
  constructor
  · intro fs hsd hld
    rw [ConfigParser.init_unfold config resume modification r now fs cfg machine margs base n
        hm h1 h2 h3 h4]
    have hsd2 : pjoin (pjoin (pjoin base "models") n) r ∉ fs.dirs := by
      simpa using hsd
    have hld2 : pjoin (pjoin (pjoin base "log") n) r ∉ fs.dirs := by
      simpa using hld
    refine ⟨⟨pjoin (pjoin (pjoin base "log") n) r ::
              pjoin (pjoin (pjoin base "models") n) r :: fs.dirs,
             setD fs.files (pjoin (pjoin (pjoin (pjoin base "models") n) r) "config.json") cfg⟩,
            ⟨cfg, resume, pjoin (pjoin (pjoin base "models") n) r,
             pjoin (pjoin (pjoin base "log") n) r⟩, ?_, rfl, rfl, rfl, ?_, ?_, ?_⟩
    · simp [mkdirParents, hsd2, hld2, List.mem_cons, hne.symm, h5, write_json]
    · simp [ConfigParser.save_dir, List.mem_cons]
    · simp [ConfigParser.log_dir, List.mem_cons]
    · exact lookupD_setD_self fs.files _ cfg
  · intro fs hex
    constructor
    · rintro ⟨fs', cp, hinit⟩
      by_contra hr
      have hrb : (r == "") = false := by
        cases hb : (r == "") with
        | true => exact absurd (by simpa using hb) hr
        | false => rfl
      rw [ConfigParser.init_unfold config resume modification r now fs cfg machine margs base n
          hm h1 h2 h3 h4, hrb] at hinit
      rcases hex with hsd | hld
      · have hsd2 : pjoin (pjoin (pjoin base "models") n) r ∈ fs.dirs := by simpa using hsd
        simp [mkdirParents, hsd2] at hinit
      · have hld2 : pjoin (pjoin (pjoin base "log") n) r ∈ fs.dirs := by simpa using hld
        by_cases hsd2 : pjoin (pjoin (pjoin base "models") n) r ∈ fs.dirs
        · simp [mkdirParents, hsd2] at hinit
        · simp [mkdirParents, hsd2, List.mem_cons, hld2] at hinit
    · rintro rfl
      rw [ConfigParser.init_unfold config resume modification "" now fs cfg machine margs base n
          hm h1 h2 h3 h4]
      obtain ⟨fs1, hk1⟩ :=
        mkdirParents_ok_of_exist_ok fs (pjoin (pjoin (pjoin base "models") n) "")
      obtain ⟨fs2, hk2⟩ :=
        mkdirParents_ok_of_exist_ok fs1 (pjoin (pjoin (pjoin base "log") n) "")
      refine ⟨write_json cfg (pjoin (pjoin (pjoin (pjoin base "models") n) "") "config.json") fs2,
              ⟨cfg, resume, pjoin (pjoin (pjoin base "models") n) "",
               pjoin (pjoin (pjoin base "log") n) ""⟩, ?_⟩
      simp only [show (("" : String) == "") = true from rfl, hk1, hk2, h5]

/--
C8: In `from_args`, when neither the resume option `-r` nor the config
option `-c` is given, construction fails with the assertion error carrying
the user-facing message; when `-r` is absent but `-c` is given, the base
configuration is
read from the given config path (the resolve stage returns that document,
with the forced `logconf` key, untouched otherwise).
-/
theorem C8_missing_config_assert :
    (∀ (fs : FS) (args : Args) (options : List CustomOption) (now : String),
        args.resume = none → args.conf = none →
        ConfigParser.from_args args options now fs =
          (fs, .error (.assertionError (some msg_no_cfg)))) ∧
    (∀ (fs : FS) (args : Args) (options : List CustomOption) (p : String) (d : Dict)
        (mods : List (String × JValue)),
        args.resume = none → args.conf = some p →
        read_json fs p = .ok (.obj d) →
        buildModification options args = .ok mods →
        from_args_resolve fs args options = .ok
          { resume := none,
            config := .obj (setD d "logconf"
              (.str (if truthyStr args.logconf then args.logconf.getD "" else ""))),
            modification := mods,
            device := args.device }) := by
  constructor
  · intro fs args options now hr hc
    simp [ConfigParser.from_args, from_args_resolve, hr, hc]
  · intro fs args options p d mods hr hc hread hmods
    simp [from_args_resolve, hr, hc, hread, hmods, setItemJ]

/-- Witness for C8: with neither option the assertion fires; with only
    `-c conf.json` the document stored at `conf.json` is resolved. -/
theorem C8_missing_config_assert_witness :
    ConfigParser.from_args ⟨none, none, none, none, fun _ => .null⟩ [] "TS" ⟨[], []⟩ =
      (⟨[], []⟩, .error (.assertionError (some msg_no_cfg))) ∧
    from_args_resolve ⟨[], [("conf.json", .obj [("name", .str "n")])]⟩
        ⟨none, none, some "conf.json", none, fun _ => .null⟩ [] = .ok
      { resume := none,
        config := .obj (setD [("name", .str "n")] "logconf"
          (.str (if truthyStr (none : Option String) then (none : Option String).getD "" else ""))),
        modification := [],
        device := none } :=
  ⟨C8_missing_config_assert.1 ⟨[], []⟩ ⟨none, none, none, none, fun _ => .null⟩ [] "TS" rfl rfl,
   C8_missing_config_assert.2 ⟨[], [("conf.json", .obj [("name", .str "n")])]⟩
     ⟨none, none, some "conf.json", none, fun _ => .null⟩ [] "conf.json"
     [("name", .str "n")] [] rfl rfl rfl rfl⟩

/-- Witness for C7: the end-to-end spec example
    `{"name": "exp1", "machine": {"args": {"save_dir": "/tmp/out"}}}` with
    `run_id="r1"`; creation fails on the pre-existing directory since
    `"r1"` is not the empty string. -/
theorem C7_directory_derivation_and_persistence_witness :
    (∃ fs' cp,
        ConfigParser.init
            (.obj [("name", .str "exp1"),
                   ("machine", .obj [("args", .obj [("save_dir", .str "/tmp/out")])]),
                   ("logconf", .str "")])
            none none (some "r1") "TS" ⟨[], []⟩ = (fs', .ok cp) ∧
        cp.save_dir = pjoin (pjoin (pjoin "/tmp/out" "models") "exp1") "r1" ∧
        cp.log_dir = pjoin (pjoin (pjoin "/tmp/out" "log") "exp1") "r1" ∧
        cp.config = (.obj [("name", .str "exp1"),
                           ("machine", .obj [("args", .obj [("save_dir", .str "/tmp/out")])]),
                           ("logconf", .str "")]) ∧
        cp.save_dir ∈ fs'.dirs ∧
        cp.log_dir ∈ fs'.dirs ∧
        lookupD fs'.files (pjoin cp.save_dir "config.json") =
          some (.obj [("name", .str "exp1"),
                      ("machine", .obj [("args", .obj [("save_dir", .str "/tmp/out")])]),
                      ("logconf", .str "")])) ∧
    ((∃ fs' cp,
        ConfigParser.init
            (.obj [("name", .str "exp1"),
                   ("machine", .obj [("args", .obj [("save_dir", .str "/tmp/out")])]),
                   ("logconf", .str "")])
            none none (some "r1") "TS"
            ⟨[pjoin (pjoin (pjoin "/tmp/out" "models") "exp1") "r1"], []⟩ = (fs', .ok cp))
      ↔ "r1" = "") :=
  ⟨(C7_directory_derivation_and_persistence
      (.obj [("name", .str "exp1"),
             ("machine", .obj [("args", .obj [("save_dir", .str "/tmp/out")])]),
             ("logconf", .str "")])
      none none
      (.obj [("name", .str "exp1"),
             ("machine", .obj [("args", .obj [("save_dir", .str "/tmp/out")])]),
             ("logconf", .str "")])
      (.obj [("args", .obj [("save_dir", .str "/tmp/out")])])
      (.obj [("save_dir", .str "/tmp/out")])
      (.str "") "/tmp/out" "exp1" "r1" "TS"
      rfl rfl rfl rfl rfl rfl).1 ⟨[], []⟩ rfl rfl,
   (C7_directory_derivation_and_persistence
      (.obj [("name", .str "exp1"),
             ("machine", .obj [("args", .obj [("save_dir", .str "/tmp/out")])]),
             ("logconf", .str "")])
      none none
      (.obj [("name", .str "exp1"),
             ("machine", .obj [("args", .obj [("save_dir", .str "/tmp/out")])]),
             ("logconf", .str "")])
      (.obj [("args", .obj [("save_dir", .str "/tmp/out")])])
      (.obj [("save_dir", .str "/tmp/out")])
      (.str "") "/tmp/out" "exp1" "r1" "TS"
      rfl rfl rfl rfl rfl rfl).2
     ⟨[pjoin (pjoin (pjoin "/tmp/out" "models") "exp1") "r1"], []⟩ (Or.inl (by decide))⟩

/-- The value `from_args` forces into `config['logconf']` is the CLI value
    when given and the empty string otherwise (an explicitly given empty
    string is its own value). -/
theorem logconf_value (l : Option String) :
    (if truthyStr l then l.getD "" else "") = l.getD "" := by
  cases l with
  | none => rfl
  | some s =>
      by_cases h : s = ""
      · subst h; rfl
      · simp [truthyStr, h]

/-- A successful top-level assignment happens on a dict and rebuilds it with
    `setD`. -/
theorem setItemJ_ok {v w x : JValue} {k : String} (h : setItemJ v k x = .ok w) :
    ∃ d, v = .obj d ∧ w = .obj (setD d k x) := by
  cases v with
  | obj d => exact ⟨d, rfl, (Except.ok.inj h).symm⟩
  | null => exact Except.noConfusion h
  | bool b => exact Except.noConfusion h
  | int n => exact Except.noConfusion h
  | str s => exact Except.noConfusion h

/--
C10: Direct construction also requires the merged document to hold a
top-level `logconf` key: when it is absent, construction fails with the
`KeyError` only after both run directories are created (and the config
snapshot is written); and `from_args` always injects the key, setting it to
the CLI value when given and to the empty string otherwise, overwriting any
`logconf` value in the loaded file.
-/
theorem C10_logconf_requirement :
    (∀ (config : JValue) (resume : Option String)
        (modification : Option (List (String × JValue)))
        (cfg machine margs : JValue) (base n r now : String) (fs : FS),
        _update_config config modification = .ok cfg →
        getItem cfg "machine" = .ok machine →
        getItem machine "args" = .ok margs →
        getItem margs "save_dir" = .ok (.str base) →
        getItem cfg "name" = .ok (.str n) →
        getItem cfg "logconf" = .error (.keyError "logconf") →
        fs.dirs.contains (pjoin (pjoin (pjoin base "models") n) r) = false →
        fs.dirs.contains (pjoin (pjoin (pjoin base "log") n) r) = false →
        ∃ fs',
          ConfigParser.init config resume modification (some r) now fs =
            (fs', .error (.keyError "logconf")) ∧
          pjoin (pjoin (pjoin base "models") n) r ∈ fs'.dirs ∧
          pjoin (pjoin (pjoin base "log") n) r ∈ fs'.dirs ∧
          lookupD fs'.files (pjoin (pjoin (pjoin (pjoin base "models") n) r) "config.json") =
            some cfg) ∧
    (∀ (fs : FS) (args : Args) (options : List CustomOption) (res : ResolvedArgs),
        from_args_resolve fs args options = .ok res →
        getItem res.config "logconf" = .ok (.str (args.logconf.getD ""))) := by
  constructor
  · intro config resume modification cfg machine margs base n r now fs
      hm h1 h2 h3 h4 h5 hsd hld
    have hne := models_dir_ne_log_dir base n r
    rw [ConfigParser.init_unfold config resume modification r now fs cfg machine margs base n
        hm h1 h2 h3 h4]
    have hsd2 : pjoin (pjoin (pjoin base "models") n) r ∉ fs.dirs := by
      simpa using hsd
    have hld2 : pjoin (pjoin (pjoin base "log") n) r ∉ fs.dirs := by
      simpa using hld
    refine ⟨⟨pjoin (pjoin (pjoin base "log") n) r ::
              pjoin (pjoin (pjoin base "models") n) r :: fs.dirs,
             setD fs.files (pjoin (pjoin (pjoin (pjoin base "models") n) r) "config.json") cfg⟩,
            ?_, ?_, ?_, ?_⟩
    · simp [mkdirParents, hsd2, hld2, List.mem_cons, hne.symm, h5, write_json]
    · simp [List.mem_cons]
    · simp [List.mem_cons]
    · exact lookupD_setD_self fs.files _ cfg
  · intro fs args options res h
    simp only [from_args_resolve] at h
    split at h
    · exact Except.noConfusion h
    · split at h
      · exact Except.noConfusion h
      · split at h
        · exact Except.noConfusion h
        · split at h
          · exact Except.noConfusion h
          · rename_i config2 hset
            split at h
            · exact Except.noConfusion h
            · have hres := Except.ok.inj h
              subst hres
              obtain ⟨d1, _, rfl⟩ := setItemJ_ok hset
              simp [getItem, lookupD_setD_self, logconf_value]

/-- Witness for C10: a document with `name` and `machine.args.save_dir` but
    no `logconf` key fails with `KeyError("logconf")` after both directories
    exist; and a resolve with `-l lc.json` overwrites the loaded
    `logconf: "old"`. -/
theorem C10_logconf_requirement_witness :
    (∃ fs',
        ConfigParser.init
            (.obj [("name", .str "exp1"),
                   ("machine", .obj [("args", .obj [("save_dir", .str "/tmp/out")])])])
            none none (some "r1") "TS" ⟨[], []⟩ =
          (fs', .error (.keyError "logconf")) ∧
        pjoin (pjoin (pjoin "/tmp/out" "models") "exp1") "r1" ∈ fs'.dirs ∧
        pjoin (pjoin (pjoin "/tmp/out" "log") "exp1") "r1" ∈ fs'.dirs ∧
        lookupD fs'.files
            (pjoin (pjoin (pjoin (pjoin "/tmp/out" "models") "exp1") "r1") "config.json") =
          some (.obj [("name", .str "exp1"),
                      ("machine", .obj [("args", .obj [("save_dir", .str "/tmp/out")])])])) ∧
    getItem (JValue.obj [("name", .str "n"), ("logconf", .str "lc.json")]) "logconf" =
      .ok (.str ((some "lc.json" : Option String).getD "")) :=
  ⟨C10_logconf_requirement.1
      (.obj [("name", .str "exp1"),
             ("machine", .obj [("args", .obj [("save_dir", .str "/tmp/out")])])])
      none none
      (.obj [("name", .str "exp1"),
             ("machine", .obj [("args", .obj [("save_dir", .str "/tmp/out")])])])
      (.obj [("args", .obj [("save_dir", .str "/tmp/out")])])
      (.obj [("save_dir", .str "/tmp/out")])
      "/tmp/out" "exp1" "r1" "TS" ⟨[], []⟩
      rfl rfl rfl rfl rfl rfl rfl rfl,
   C10_logconf_requirement.2
      ⟨[], [("conf.json", .obj [("name", .str "n"), ("logconf", .str "old")])]⟩
      ⟨none, none, some "conf.json", some "lc.json", fun _ => .null⟩ []
      ⟨none, .obj [("name", .str "n"), ("logconf", .str "lc.json")], [], none⟩ rfl⟩

/-- The navigation result of a successful instrumented navigation. -/
theorem hNav_of_trace :
    ∀ (ks : List String) (h : Heap) (a : Addr) (tr : List Addr) (t : Addr),
      hNavTrace h a ks = .ok (tr, t) → hNav h a ks = .ok t := by
  intro ks
  induction ks with
  | nil =>
      intro h a tr t hh
      simp only [hNavTrace, Except.ok.injEq, Prod.mk.injEq] at hh
      simp [hNav, hh.2]
  | cons k ks ih =>
      intro h a tr t hh
      cases hg : hGetField h a k with
      | error e =>
          simp only [hNavTrace, hg] at hh
          exact Except.noConfusion hh
      | ok v =>
          cases v with
          | prim p =>
              simp only [hNavTrace, hg] at hh
              exact Except.noConfusion hh
          | ref b =>
              cases htr : hNavTrace h b ks with
              | error e =>
                  simp only [hNavTrace, hg, htr] at hh
                  exact Except.noConfusion hh
              | ok pr =>
                  obtain ⟨tr2, t2⟩ := pr
                  simp only [hNavTrace, hg, htr, Except.ok.injEq, Prod.mk.injEq] at hh
                  simp [hNav, hg, ih h b tr2 t2 htr, hh.2]

/-- Mutating a heap cell whose address the navigation never reads from does
    not change the navigation. -/
theorem hNavTrace_set_not_mem :
    ∀ (ks : List String) (h : Heap) (a : Addr) (tr : List Addr) (t : Addr) (x : Addr) (d : HDict),
      hNavTrace h a ks = .ok (tr, t) → x ∉ tr →
      hNavTrace (h.set x d) a ks = .ok (tr, t) := by
  intro ks
  induction ks with
  | nil =>
      intro h a tr t x d hh _
      simpa [hNavTrace] using hh
  | cons k ks ih =>
      intro h a tr t x d hh hx
      cases hg : hGetField h a k with
      | error e =>
          simp only [hNavTrace, hg] at hh
          exact Except.noConfusion hh
      | ok v =>
          cases v with
          | prim p =>
              simp only [hNavTrace, hg] at hh
              exact Except.noConfusion hh
          | ref b =>
              cases htr : hNavTrace h b ks with
              | error e =>
                  simp only [hNavTrace, hg, htr] at hh
                  exact Except.noConfusion hh
              | ok pr =>
                  obtain ⟨tr2, t2⟩ := pr
                  simp only [hNavTrace, hg, htr, Except.ok.injEq, Prod.mk.injEq] at hh
                  obtain ⟨htr', ht2⟩ := hh
                  subst ht2
                  subst htr'
                  have hxa : x ≠ a := fun hxa => hx (hxa ▸ List.mem_cons_self a tr2)
                  have hxtr2 : x ∉ tr2 := fun hm => hx (List.mem_cons_of_mem a hm)
                  have hga : hGetField (h.set x d) a k = .ok (.ref b) := by
                    unfold hGetField at hg ⊢
                    rw [List.get?_set_ne d h hxa]
                    exact hg
                  simp only [hNavTrace, hga, ih h b tr2 t2 x d htr hxtr2]

/--
C9: The merge is performed in place on the caller's document object:
`_update_config` returns the very same dictionary reference it was given
(never a copy), so every applied override is visible through the caller's
original reference — after a successful single-entry merge, reading the
override path through the original address yields the new value.
-/
theorem C9_update_config_returns_same_object :
    (∀ (h : Heap) (a : Addr) (mods : Option (List (String × HVal))) (res : Heap × Addr),
        hUpdateConfig h a mods = .ok res → res.2 = a) ∧
    (∀ (h : Heap) (a : Addr) (p : String) (v : HVal) (ks : List String)
        (tr : List Addr) (tgt : Addr) (dtgt : HDict),
        pySplit p ';' = ks →
        v.isNull = false →
        hNavTrace h a ks.dropLast = .ok (tr, tgt) →
        tgt ∉ tr →
        h.get? tgt = some dtgt →
        ∃ h2,
          hUpdateConfig h a (some [(p, v)]) = .ok (h2, a) ∧
          hNav h2 a ks.dropLast = .ok tgt ∧
          hGetField h2 tgt (ks.getLastD "") = .ok v) := by
  constructor
  · intro h a mods res hres
    cases mods with
    | none =>
        simp only [hUpdateConfig, Except.ok.injEq] at hres
        rw [← hres]
    | some ms =>
        simp only [hUpdateConfig] at hres
        cases ham : applyModsHeap h a ms with
        | ok h2 =>
            rw [ham] at hres
            have := Except.ok.inj hres
            rw [← this]
        | error e => rw [ham] at hres; exact Except.noConfusion hres
  · intro h a p v ks tr tgt dtgt hsplit hv htrace hnm hget
    have hnav := hNav_of_trace ks.dropLast h a tr tgt htrace
    refine ⟨h.set tgt (setD dtgt (ks.getLastD "") v), ?_, ?_, ?_⟩
    · have hget2 : h[tgt]? = some dtgt := by
        rw [← List.get?_eq_getElem?]; exact hget
      simp [hUpdateConfig, applyModsHeap, hv, hSetByPath, hsplit, hnav, hSetField, hget2]
    · exact hNav_of_trace ks.dropLast _ a tr tgt
        (hNavTrace_set_not_mem ks.dropLast h a tr tgt tgt (setD dtgt (ks.getLastD "") v)
          htrace hnm)
    · have hlt : tgt < h.length := by
        by_contra hc
        rw [List.get?_eq_none.mpr (Nat.le_of_not_lt hc)] at hget
        exact Option.noConfusion hget
      unfold hGetField
      rw [List.get?_set_eq_of_lt _ hlt]
      simp [lookupD_setD_self]

/-- Witness for C9: the two-cell heap `{a: {b: 1}}` with override
    `"a;c" := 9`, read back through the original root reference. -/
theorem C9_update_config_returns_same_object_witness :
    ∃ h2,
      hUpdateConfig [[("a", HVal.ref 1)], [("b", HVal.prim (.int 1))]] 0
          (some [("a;c", HVal.prim (.int 9))]) = .ok (h2, 0) ∧
      hNav h2 0 (["a", "c"] : List String).dropLast = .ok 1 ∧
      hGetField h2 1 ((["a", "c"] : List String).getLastD "") = .ok (HVal.prim (.int 9)) :=
  C9_update_config_returns_same_object.2
    [[("a", HVal.ref 1)], [("b", HVal.prim (.int 1))]] 0 "a;c" (HVal.prim (.int 9))
    ["a", "c"] [0] 1 [("b", HVal.prim (.int 1))] rfl rfl rfl (by decide) rfl
